import Mathlib

/-!
Verification of the narration-player repository (audio narration playback
engine).  The definitions below are a shallow embedding of the TypeScript
source: the canonical `Player` component (the variant with `stopAllAudio`,
`speakSentence` and `playNextSentence`), the `decodeAudioData` PCM decoder,
and the functions in `services/geminiService.ts` together with the `App`
component's schedule check and persisted-state loader.

Asynchronous handlers are split at their `await` points: each synchronous
block becomes one atomic step function on an explicit engine state, and a
trace is an arbitrary interleaving of such blocks (speech results are
supplied by an oracle parameter, since `generateSpeech` is an external
network call).
-/

set_option autoImplicit false

/-! ### Small list-indexing helpers

`sAt d l i` is `l[i]` with default `d` (JS array indexing), mirroring
`List.getD`; we use a first-principles definition so that all index/update
lemmas are provable by plain induction. -/

def sAt {α : Type} (d : α) : List α → Nat → α
  | [], _ => d
  | x :: _, 0 => x
  | _ :: xs, n + 1 => sAt d xs n

/-! ### PCMDecoder

`decodeAudioData` (canonical variant, src/unnamed/part_002 lines 493-502):
`bufferLength = floor(byteLength / 2)`; `dataInt16` views the bytes as
signed 16-bit little-endian integers; sample `i` is `dataInt16[i] / 32768.0`.
The division is exact in IEEE double precision (numerator magnitude at most
32768, denominator a power of two), so samples are modelled as rationals. -/

def int16OfBytes (lo hi : Nat) : Int :=
  let u : Nat := lo % 256 + 256 * (hi % 256)
  if u < 32768 then (u : Int) else (u : Int) - 65536

def decodeAudioData (data : List Nat) : List Rat :=
  (List.range (data.length / 2)).map
    (fun i => (int16OfBytes (sAt 0 data (2 * i)) (sAt 0 data (2 * i + 1)) : Rat) / 32768)

/-! ### Data model: lessons and schedules (src/types, as used by the source) -/

structure SentenceT where
  id : String
  original : String
  translation : String
deriving DecidableEq

structure LessonT where
  id : String
  title : String
  category : String
  sentences : List SentenceT
deriving DecidableEq

structure Schedule where
  id : String
  name : String
  startTime : String
  endTime : String
  enabled : Bool
  repeatDays : List Nat
deriving DecidableEq

/-! ### ScheduleTrigger (`checkSchedule` in the App component)

`currentHhMm` is built from `now.getHours()`/`now.getMinutes()` with
`padStart(2, '0')`; the active schedule is found with `Array.find` over the
entry list, and the view is switched only when a match exists and the
current view is not already `'player'`. -/

def pad2 (n : Nat) : String :=
  if (toString n).length < 2 then "0" ++ toString n else toString n

def formatHhMm (h m : Nat) : String :=
  pad2 h ++ ":" ++ pad2 m

def scheduleActive (day : Nat) (hhmm : String) (s : Schedule) : Bool :=
  s.enabled && s.repeatDays.contains day && s.startTime == hhmm

def checkSchedule (schedules : List Schedule) (day h m : Nat) (currentView : String) :
    String × Bool :=
  match schedules.find? (scheduleActive day (formatHhMm h m)) with
  | some _ => if currentView ≠ "player" then ("player", true) else (currentView, false)
  | none => (currentView, false)

/-! ### Persisted application state (App `useState` initializer)

On load, a saved blob is spread into the new state with `currentView`
forced to `'home'` and `isAutoModeArmed` forced to `false`. -/

structure AppState where
  currentView : String
  currentLesson : Option LessonT
  schedules : List Schedule
  isAutoModeArmed : Bool
deriving DecidableEq

def defaultSchedules : List Schedule :=
  [ { id := "1", name := "早餐熏听", startTime := "07:00", endTime := "07:30",
      enabled := true, repeatDays := [1, 2, 3, 4, 5] },
    { id := "2", name := "午餐熏听", startTime := "12:00", endTime := "12:45",
      enabled := true, repeatDays := [1, 2, 3, 4, 5] } ]

def initialAppState (firstLesson : Option LessonT) : AppState :=
  { currentView := "home", currentLesson := firstLesson,
    schedules := defaultSchedules, isAutoModeArmed := false }

def loadAppState (firstLesson : Option LessonT) (saved : Option AppState) : AppState :=
  match saved with
  | some parsed => { parsed with currentView := "home", isAutoModeArmed := false }
  | none => initialAppState firstLesson

/-! ### LessonContentFetcher (`fetchLessonContent` success path)

The fetched JSON is `{ title?, category?, sentences? }`; the returned lesson
uses a random id (passed here as a parameter), `data.title || lessonName`,
the constant category `'custom'`, and sentences re-keyed positionally with
ids `s-0`, `s-1`, .... -/

structure FetchedSentence where
  original : String
  translation : String
deriving DecidableEq

structure FetchedData where
  title : Option String
  category : Option String
  sentences : Option (List FetchedSentence)
deriving DecidableEq

def jsTitleOr (t : Option String) (fallback : String) : String :=
  match t with
  | some s => if s = "" then fallback else s
  | none => fallback

def fetchLessonContent (lessonName randomId : String) (data : FetchedData) : LessonT :=
  { id := randomId
  , title := jsTitleOr data.title lessonName
  , category := "custom"
  , sentences :=
      ((data.sentences.getD []).enum).map
        (fun p => { id := "s-" ++ toString p.1
                  , original := p.2.original
                  , translation := p.2.translation }) }

/-! ### AudioOutputDevice and NarrationController state

One `SourceNode` models an `AudioBufferSourceNode`: whether it is connected
to the destination, whether it has been started (and not yet stopped or
ended, i.e. it is actively producing sound), and its single-slot `onended`
completion continuation.  `EndedCont.auto index` is the closure installed by
`playNextSentence` (src/unnamed/part_002 lines 585-598); `EndedCont.point` is the
closure installed by `speakSentence` (line 538). -/

inductive EndedCont where
  | auto (index : Nat)
  | point
deriving DecidableEq

structure SourceNode where
  connected : Bool
  started : Bool
  onended : Option EndedCont
  buffer : List Rat
deriving DecidableEq


/-- The source node built by `playNextSentence` for unit `index`. -/
def autoSource (index : Nat) (bytes : List Nat) : SourceNode :=
  { connected := true, started := false, onended := some (EndedCont.auto index),
    buffer := decodeAudioData bytes }

/-- The source node built by `speakSentence`. -/
def pointSource (bytes : List Nat) : SourceNode :=
  { connected := true, started := false, onended := some EndedCont.point,
    buffer := decodeAudioData bytes }

def dummySource : SourceNode :=
  { connected := false, started := false, onended := none, buffer := [] }

/-- Engine state of the canonical `Player` component: React state hooks
(`currentIndex`, `isPlaying`, `isLooping`, `loadingAudio`, `activeSpeechId`,
`loadingSpeechId`, `statusMsg`), the refs (`currentSourceRef`,
`isComponentMounted`), the set of created source nodes (indexed by creation
order), and the pending failure-skip timeout.  `nSentences` is
`lesson.sentences.length`, fixed for the session. -/
structure EngineState where
  nSentences : Nat
  currentIndex : Nat
  isPlaying : Bool
  isLooping : Bool
  loadingAudio : Bool
  activeSpeechId : Option String
  loadingSpeechId : Option String
  statusMsg : Option String
  mounted : Bool
  sources : List SourceNode
  currentSourceRef : Option Nat
  pendingSkip : Option Nat
deriving DecidableEq

def initEngine (n : Nat) : EngineState :=
  { nSentences := n, currentIndex := 0, isPlaying := false, isLooping := false,
    loadingAudio := false, activeSpeechId := none, loadingSpeechId := none,
    statusMsg := none, mounted := true, sources := [], currentSourceRef := none,
    pendingSkip := none }

/-- `stopAllAudio` (lines 504-514): if a source is referenced, detach its
`onended` observer, stop it, disconnect it and drop the reference; then
clear `activeSpeechId`. -/
def stopAllAudio (s : EngineState) : EngineState :=
  let s1 :=
    match s.currentSourceRef with
    | some sid =>
        let src := sAt dummySource s.sources sid
        let halted := { src with onended := none, started := false, connected := false }
        { s with sources := s.sources.set sid halted, currentSourceRef := none }
    | none => s
  { s1 with activeSpeechId := none }

/-- Mark source `sid` as started (`source.start(0)`). -/
def startSource (sid : Nat) (s : EngineState) : EngineState :=
  let src := sAt dummySource s.sources sid
  { s with sources := s.sources.set sid ({ src with started := true }) }

/-- The fixed failure-skip delay (`setTimeout(..., 1000)`, line 570). -/
def skipDelayMs : Nat := 1000

/-- `playNextSentence` up to the `generateSpeech` await (lines 551-563):
guard on `isPlaying` and mountedness, then show the loading state. -/
def playNextReq (index : Nat) (s : EngineState) : EngineState :=
  if !s.isPlaying || !s.mounted then s
  else
    { s with loadingAudio := true,
             statusMsg := some ("正在研读第 " ++ toString (index + 1) ++ " 章...") }

/-- The `source.onended` continuation installed by `playNextSentence`
(lines 585-598): when looping, re-request the same index (the synchronous
prefix of `playNextSentence(index)`); otherwise advance to `index + 1` when
in range, else stop playing and mark the session finished. -/
def autoOnEnded (index : Nat) (s : EngineState) : EngineState :=
  if !s.mounted then s
  else if s.isLooping then playNextReq index s
  else if index + 1 < s.nSentences then { s with currentIndex := index + 1 }
  else { s with isPlaying := false, statusMsg := some "全篇诵读完毕" }

/-- `playNextSentence` after the `generateSpeech` await (lines 564-607):
re-check liveness; on failure schedule the skip timeout; on success decode,
build and connect a new source, install the auto continuation, stop the
previous source, publish the reference and start. -/
def playNextResult (index : Nat) (audio : Option (List Nat)) (s : EngineState) :
    EngineState :=
  if !s.mounted || !s.isPlaying then s
  else
    let s := { s with loadingAudio := false }
    match audio with
    | none => { s with pendingSkip := some index }
    | some bytes =>
        let src : SourceNode := autoSource index bytes
        let sid := s.sources.length
        let s := { s with sources := s.sources ++ [src] }
        let s := stopAllAudio s
        let s := { s with currentSourceRef := some sid }
        let s := startSource sid s
        { s with statusMsg := none }

/-- Body of the failure-skip timeout (lines 570-576): advance past the
failed index when possible, otherwise stop playing. -/
def skipTimeoutBody (index : Nat) (s : EngineState) : EngineState :=
  if index + 1 < s.nSentences then { s with currentIndex := index + 1 }
  else { s with isPlaying := false }

/-- `speakSentence` up to the `generateSpeech` await (lines 517-524):
stop all audio, leave auto-narration, show the point-read loading state. -/
def speakSentenceReq (sid : String) (s : EngineState) : EngineState :=
  let s := stopAllAudio s
  let s := { s with isPlaying := false }
  { s with loadingSpeechId := some sid, statusMsg := some "AI 正在备嗓..." }

/-- `speakSentence` after the `generateSpeech` await (lines 525-543):
guard on mountedness only; on failure surface a transient status; on
success build, connect and start a new source whose completion clears
`activeSpeechId`. -/
def speakSentenceResult (sid : String) (audio : Option (List Nat)) (s : EngineState) :
    EngineState :=
  if !s.mounted then s
  else
    let s := { s with loadingSpeechId := none }
    match audio with
    | none => { s with statusMsg := some "AI 乐师暂时缺席，请重试" }
    | some bytes =>
        let src : SourceNode := pointSource bytes
        let nid := s.sources.length
        let s := { s with sources := s.sources ++ [src] }
        let s := { s with currentSourceRef := some nid }
        let s := { s with activeSpeechId := some sid, statusMsg := none }
        startSource nid s

/-- The `onended` continuation installed by `speakSentence` (line 538). -/
def pointOnEnded (s : EngineState) : EngineState :=
  { s with activeSpeechId := none }

/-- Run a completion continuation. -/
def runCont (c : EndedCont) (s : EngineState) : EngineState :=
  match c with
  | EndedCont.auto index => autoOnEnded index s
  | EndedCont.point => pointOnEnded s

/-- Delivery of the platform `ended` event for source `sid`: only a source
that is actively producing sound can end; it stops producing sound, and its
`onended` observer (when still attached) runs. -/
def fireEnded (sid : Nat) (s : EngineState) : EngineState :=
  let src := sAt dummySource s.sources sid
  if sid < s.sources.length && src.started then
    let s1 := { s with sources := s.sources.set sid ({ src with started := false }) }
    match src.onended with
    | some c => runCont c s1
    | none => s1
  else s

/-- `toggleAutoPlay` (lines 622-626). -/
def toggleAutoPlay (s : EngineState) : EngineState :=
  let s := if s.activeSpeechId.isSome then stopAllAudio s else s
  { s with isPlaying := !s.isPlaying }

/-- The loop toggle (`setIsLooping(!isLooping)`, line 642). -/
def toggleLoop (s : EngineState) : EngineState :=
  { s with isLooping := !s.isLooping }

/-- The previous-unit control (disabled at index 0; otherwise
`Math.max(0, prev - 1)`). -/
def prevClick (s : EngineState) : EngineState :=
  if s.currentIndex = 0 then s
  else { s with currentIndex := max 0 (s.currentIndex - 1) }

/-- The next-unit control (disabled at the last index; otherwise
`Math.min(len - 1, prev + 1)`). -/
def nextClick (s : EngineState) : EngineState :=
  if s.currentIndex = s.nSentences - 1 then s
  else { s with currentIndex := min (s.nSentences - 1) (s.currentIndex + 1) }

/-- The sentence-click seek handler (src/unnamed/part_002 lines 162-168):
set `currentIndex` to the clicked unit's index and enter auto-narration if
idle.  Click targets exist only for indices of the lesson's units. -/
def seekClick (idx : Nat) (s : EngineState) : EngineState :=
  let s := { s with currentIndex := idx }
  if !s.isPlaying then { s with isPlaying := true } else s

/-- The `else` branch of the playback `useEffect` (lines 610-616): when not
auto-playing and no point-read is active, stop all audio. -/
def effectStop (s : EngineState) : EngineState :=
  if !s.isPlaying && s.activeSpeechId.isNone then stopAllAudio s else s

/-- One atomic synchronous block of the event loop.  Speech results carry
the oracle's answer for the corresponding `generateSpeech` call. -/
inductive Event where
  | togglePlay
  | toggleLoop
  | prevClick
  | nextClick
  | seekClick (idx : Nat)
  | autoReq (index : Nat)
  | autoRes (index : Nat) (audio : Option (List Nat))
  | skipFire
  | pointReq (sid : String)
  | pointRes (sid : String) (audio : Option (List Nat))
  | ended (sid : Nat)
  | effectStop
deriving DecidableEq

def stepEv (e : Event) (s : EngineState) : EngineState :=
  match e with
  | Event.togglePlay => toggleAutoPlay s
  | Event.toggleLoop => toggleLoop s
  | Event.prevClick => prevClick s
  | Event.nextClick => nextClick s
  | Event.seekClick idx => seekClick idx s
  | Event.autoReq index => playNextReq index s
  | Event.autoRes index audio => playNextResult index audio s
  | Event.skipFire =>
      match s.pendingSkip with
      | some k => skipTimeoutBody k { s with pendingSkip := none }
      | none => s
  | Event.pointReq sid => speakSentenceReq sid s
  | Event.pointRes sid audio => speakSentenceResult sid audio s
  | Event.ended sid => fireEnded sid s
  | Event.effectStop => effectStop s

def runEvents (n : Nat) (evs : List Event) : EngineState :=
  evs.foldl (fun s e => stepEv e s) (initEngine n)

/-! ### Invariant vocabulary and example states -/

/-- One completion-and-successful-replay cycle of unit `k` in looping mode:
the `onended` handler fires, then the re-requested speech for the same unit
arrives and is replayed. -/
def cycleAuto (k : Nat) (bytes : List Nat) (s : EngineState) : EngineState :=
  playNextResult k (some bytes) (autoOnEnded k s)

/-- Every source that is actively producing sound is the currently
referenced one. -/
def startedOnly (s : EngineState) : Prop :=
  ∀ i, i < s.sources.length → (sAt dummySource s.sources i).started = true →
    s.currentSourceRef = some i

/-- At most one source is actively producing sound. -/
def atMostOneActive (s : EngineState) : Prop :=
  ∀ i, i < s.sources.length → ∀ j, j < s.sources.length →
    (sAt dummySource s.sources i).started = true →
    (sAt dummySource s.sources j).started = true → i = j

/-- Side condition on a step: a point-read speech result may only arrive
while no source is producing sound.  (The code's `speakSentence` stops the
current source when the request is issued, but performs no stop when the
result arrives.) -/
def pointGuard (e : Event) (s : EngineState) : Prop :=
  match e with
  | Event.pointRes _ (some _) =>
      ∀ i, i < s.sources.length → (sAt dummySource s.sources i).started = false
  | _ => True

/-- A trace whose point-read results all arrive while no source is
producing sound. -/
def goodTrace : EngineState → List Event → Prop
  | _, [] => True
  | s, e :: rest => pointGuard e s ∧ goodTrace (stepEv e s) rest

/-- Interleaving in which a point-read's speech result arrives after
auto-narration has started another source: point-read requested, user
starts auto-narration, the auto speech result arrives and starts playing,
then the point-read speech result arrives. -/
def c1Trace : List Event :=
  [ Event.pointReq "s-0-orig", Event.togglePlay, Event.autoReq 0,
    Event.autoRes 0 (some [0, 1]), Event.pointRes "s-0-orig" (some [0, 1]) ]


/-- A trace in which the point-read result arrives while nothing is
playing, after which auto-narration starts: the guarded interleaving. -/
def goodTraceEx : List Event :=
  [ Event.pointReq "s-0-orig", Event.pointRes "s-0-orig" (some [1, 2]), Event.ended 0,
    Event.togglePlay, Event.autoReq 0, Event.autoRes 0 (some [1, 2]) ]

def dummySentence : SentenceT :=
  { id := "", original := "", translation := "" }

def dummyFetchedSentence : FetchedSentence :=
  { original := "", translation := "" }

/-- A three-unit session that is auto-playing with looping enabled. -/
def sLoopEx : EngineState :=
  { initEngine 3 with isPlaying := true, isLooping := true }

/-- A three-unit session that is auto-playing without looping. -/
def sPlayEx : EngineState :=
  { initEngine 3 with isPlaying := true, currentIndex := 1 }

/-- A reachable state in which source 0 is playing unit 0 of a one-unit
lesson. -/
def sOnePlayingEx : EngineState :=
  runEvents 1 [Event.togglePlay, Event.autoReq 0, Event.autoRes 0 (some [1, 2])]

/-- A reachable state in which a point-read of unit "s-0" is playing
(source 0, auto-narration off). -/
def sPointPlayingEx : EngineState :=
  runEvents 1 [Event.pointReq "s-0-orig", Event.pointRes "s-0-orig" (some [1, 2])]

/-- A reachable state in which a point-read has completed: its source 0 has
ended, the reference is still held, and nothing is playing. -/
def sPointDoneEx : EngineState :=
  runEvents 1 [Event.pointReq "s-0-orig", Event.pointRes "s-0-orig" (some [1, 2]),
               Event.ended 0]

theorem sAt_set_self {α : Type} (d v : α) (l : List α) (k : Nat) (h : k < l.length) :
    sAt d (l.set k v) k = v := by
  induction l generalizing k with
  | nil => simp at h
  | cons x xs ih =>
    cases k with
    | zero => rfl
    | succ n => exact ih n (Nat.lt_of_succ_lt_succ h)

theorem sAt_set_ne {α : Type} (d v : α) (l : List α) (k i : Nat) (h : i ≠ k) :
    sAt d (l.set k v) i = sAt d l i := by
  induction l generalizing k i with
  | nil => rfl
  | cons x xs ih =>
    cases k with
    | zero =>
      cases i with
      | zero => exact absurd rfl h
      | succ m => rfl
    | succ n =>
      cases i with
      | zero => rfl
      | succ m => exact ih n m (fun he => h (by rw [he]))

theorem sAt_append_left {α : Type} (d : α) (l l' : List α) (i : Nat) (h : i < l.length) :
    sAt d (l ++ l') i = sAt d l i := by
  induction l generalizing i with
  | nil => simp at h
  | cons x xs ih =>
    cases i with
    | zero => rfl
    | succ n => exact ih n (Nat.lt_of_succ_lt_succ h)

theorem sAt_append_length {α : Type} (d x : α) (l : List α) :
    sAt d (l ++ [x]) l.length = x := by
  induction l with
  | nil => rfl
  | cons y ys ih => exact ih

theorem sAt_ge_length {α : Type} (d : α) (l : List α) (i : Nat) (h : l.length ≤ i) :
    sAt d l i = d := by
  induction l generalizing i with
  | nil => rfl
  | cons x xs ih =>
    cases i with
    | zero => simp at h
    | succ n => exact ih n (Nat.le_of_succ_le_succ h)

theorem length_set_eq {α : Type} (l : List α) (k : Nat) (v : α) :
    (l.set k v).length = l.length := by
  induction l generalizing k with
  | nil => rfl
  | cons x xs ih =>
    cases k with
    | zero => rfl
    | succ n => simp [ih n]

theorem sAt_range_map {α : Type} (d : α) (f : Nat → α) (n i : Nat) (h : i < n) :
    sAt d ((List.range n).map f) i = f i := by
  induction n generalizing i with
  | zero => simp at h
  | succ m ih =>
    rcases Nat.lt_succ_iff_lt_or_eq.mp h with h' | h'
    · rw [List.range_succ, List.map_append]
      rw [sAt_append_left d _ _ i (by simpa using h')]
      exact ih i h'
    · subst h'
      rw [List.range_succ, List.map_append]
      have hl : ((List.range i).map f).length = i := by simp
      calc sAt d ((List.range i).map f ++ [f i]) i
          = sAt d ((List.range i).map f ++ [f i]) ((List.range i).map f).length := by rw [hl]
        _ = f i := sAt_append_length d (f i) _

theorem decodeAudioData_length (data : List Nat) :
    (decodeAudioData data).length = data.length / 2 := by
  simp [decodeAudioData]

theorem sAt_enumFrom_map {α β : Type} (da : α) (db : β) (f : Nat × α → β)
    (l : List α) (k i : Nat) (h : i < l.length) :
    sAt db ((List.enumFrom k l).map f) i = f (k + i, sAt da l i) := by
  induction l generalizing k i with
  | nil => simp at h
  | cons x xs ih =>
    cases i with
    | zero => simp [List.enumFrom, sAt]
    | succ n =>
      have := ih (k + 1) n (Nat.lt_of_succ_lt_succ h)
      simp only [List.enumFrom, List.map_cons, sAt, this]
      have : k + 1 + n = k + (n + 1) := by omega
      rw [this]

/-- Claim C6: for every byte buffer `B`, `decodeAudioData B` produces exactly
`floor(len(B)/2)` samples; the sample at position `i` equals the signed
16-bit little-endian integer at byte offset `2*i` divided by `32768`
(exactly, hence within any floating tolerance); an odd trailing byte is
silently dropped and decoding is total, never failing on malformed
length. -/
theorem C6_decodeAudioData_spec (data : List Nat) :
    (decodeAudioData data).length = data.length / 2 ∧
    (∀ i, i < data.length / 2 →
      sAt 0 (decodeAudioData data) i =
        (int16OfBytes (sAt 0 data (2 * i)) (sAt 0 data (2 * i + 1)) : Rat) / 32768) ∧
    (∀ b : Nat, data.length % 2 = 0 → decodeAudioData (data ++ [b]) = decodeAudioData data) := by
  refine ⟨decodeAudioData_length data, ?_, ?_⟩
  · intro i hi
    exact sAt_range_map 0 _ _ i hi
  · intro b hb
    unfold decodeAudioData
    have hlen : (data ++ [b]).length / 2 = data.length / 2 := by
      simp only [List.length_append, List.length_cons, List.length_nil]
      omega
    rw [hlen]
    apply List.map_congr_left
    intro i hi
    have hi' : i < data.length / 2 := List.mem_range.mp hi
    have h1 : 2 * i < data.length := by omega
    have h2 : 2 * i + 1 < data.length := by omega
    rw [sAt_append_left 0 data [b] _ h1, sAt_append_left 0 data [b] _ h2]

/-- Claim C7: for a lesson with `nSentences` units, the sentence-click seek
sets `currentIndex` to `clamp(idx, 0, n-1)` (the click targets exist only
for indices of the unit list, on which the clamp is the identity), the
previous/next controls compute `max 0 (i-1)` and `min (n-1) (i+1)`, and
every navigation operation leaves `currentIndex` a valid index — no
wrapping, no out-of-bounds. -/
theorem C7_navigation_clamps (s : EngineState) (idx : Nat)
    (hn : 0 < s.nSentences) (hc : s.currentIndex < s.nSentences)
    (hi : idx < s.nSentences) :
    (seekClick idx s).currentIndex = min (max idx 0) (s.nSentences - 1) ∧
    (seekClick idx s).currentIndex < s.nSentences ∧
    (prevClick s).currentIndex = max 0 (s.currentIndex - 1) ∧
    (prevClick s).currentIndex < s.nSentences ∧
    (nextClick s).currentIndex = min (s.nSentences - 1) (s.currentIndex + 1) ∧
    (nextClick s).currentIndex < s.nSentences := by
  have h1 : (seekClick idx s).currentIndex = idx := by
    simp only [seekClick]
    split <;> rfl
  have h2 : (prevClick s).currentIndex =
      if s.currentIndex = 0 then s.currentIndex else max 0 (s.currentIndex - 1) := by
    unfold prevClick
    split <;> simp_all
  have h3 : (nextClick s).currentIndex =
      if s.currentIndex = s.nSentences - 1 then s.currentIndex
      else min (s.nSentences - 1) (s.currentIndex + 1) := by
    unfold nextClick
    split <;> simp_all
  refine ⟨?_, ?_, ?_, ?_, ?_, ?_⟩
  · rw [h1]; omega
  · rw [h1]; omega
  · rw [h2]; split <;> omega
  · rw [h2]; split <;> omega
  · rw [h3]; split <;> omega
  · rw [h3]; split <;> omega

/-- Claim C9: loading any persisted application-state blob forces
`isAutoModeArmed` to `false` and `currentView` to `"home"` regardless of the
stored values, while the stored lesson and schedule list are restored as
saved; the no-blob default is likewise home and disarmed. -/
theorem C9_load_resets_armed_and_view (firstLesson : Option LessonT) (parsed : AppState) :
    (loadAppState firstLesson (some parsed)).currentView = "home" ∧
    (loadAppState firstLesson (some parsed)).isAutoModeArmed = false ∧
    (loadAppState firstLesson (some parsed)).currentLesson = parsed.currentLesson ∧
    (loadAppState firstLesson (some parsed)).schedules = parsed.schedules ∧
    (loadAppState firstLesson none).currentView = "home" ∧
    (loadAppState firstLesson none).isAutoModeArmed = false := by
  refine ⟨rfl, rfl, rfl, rfl, rfl, rfl⟩

/-- Claim C10: a successful `fetchLessonContent` returns a lesson whose
category is always the constant `"custom"` (any category in the fetched
data is ignored: replacing it changes nothing), and whose sentence
identifiers are assigned positionally as `s-0`, `s-1`, ... in fetched
order, with original and translation texts preserved. -/
theorem C10_fetchLessonContent_spec (lessonName randomId : String) (data : FetchedData) :
    (fetchLessonContent lessonName randomId data).category = "custom" ∧
    (∀ c, fetchLessonContent lessonName randomId { data with category := c } =
       fetchLessonContent lessonName randomId data) ∧
    (fetchLessonContent lessonName randomId data).sentences.length =
      (data.sentences.getD []).length ∧
    (∀ i, i < (data.sentences.getD []).length →
      sAt dummySentence (fetchLessonContent lessonName randomId data).sentences i =
        { id := "s-" ++ toString i,
          original := (sAt dummyFetchedSentence (data.sentences.getD []) i).original,
          translation := (sAt dummyFetchedSentence (data.sentences.getD []) i).translation }) := by
  refine ⟨rfl, fun c => rfl, ?_, ?_⟩
  · simp [fetchLessonContent]
  · intro i hi
    unfold fetchLessonContent
    simp only [List.enum]
    rw [sAt_enumFrom_map dummyFetchedSentence dummySentence _ _ 0 i hi]
    simp

/-- Claim C8: a schedule entry triggers at a check exactly when it is
enabled, the weekday is in `repeatDays`, and the minute-precision wall
clock equals `startTime` exactly; `endTime` is never consulted (rewriting
every entry's `endTime` leaves the check unchanged); the first matching
entry in list order wins (`find?` returns a matching head immediately);
and the check switches the view to the player only when it is not already
the player view. -/
theorem C8_checkSchedule_spec (schedules : List Schedule) (day hh mm : Nat) (v : String) :
    ((checkSchedule schedules day hh mm v).2 = true ↔
      ((schedules.any (scheduleActive day (formatHhMm hh mm))) = true ∧ v ≠ "player")) ∧
    ((checkSchedule schedules day hh mm v).1 =
      if (checkSchedule schedules day hh mm v).2 then "player" else v) ∧
    (∀ e : Schedule, scheduleActive day (formatHhMm hh mm) e = true ↔
      (e.enabled = true ∧ day ∈ e.repeatDays ∧ e.startTime = formatHhMm hh mm)) ∧
    (∀ f : Schedule → String,
      checkSchedule (schedules.map (fun e => { e with endTime := f e })) day hh mm v =
        checkSchedule schedules day hh mm v) ∧
    (∀ (e : Schedule) (rest : List Schedule),
      scheduleActive day (formatHhMm hh mm) e = true →
      (e :: rest).find? (scheduleActive day (formatHhMm hh mm)) = some e) ∧
    (v = "player" → checkSchedule schedules day hh mm v = (v, false)) := by
  refine ⟨?_, ?_, ?_, ?_, ?_, ?_⟩
  · unfold checkSchedule
    cases hf : schedules.find? (scheduleActive day (formatHhMm hh mm)) with
    | none =>
      simp only [Prod.snd]
      constructor
      · intro hx; simp at hx
      · rintro ⟨ha, hv⟩
        rw [List.any_eq_true] at ha
        obtain ⟨x, hx, hpx⟩ := ha
        exact absurd hpx (by simpa using List.find?_eq_none.mp hf x hx)
    | some e =>
      have hmem := List.mem_of_find?_eq_some hf
      have hpe := List.find?_some hf
      by_cases hv : v = "player"
      · simp [hv]
      · have hany : schedules.any (scheduleActive day (formatHhMm hh mm)) = true :=
          List.any_eq_true.mpr ⟨e, hmem, hpe⟩
        simp [hv, hany]
  · unfold checkSchedule
    cases hf : schedules.find? (scheduleActive day (formatHhMm hh mm)) with
    | none => simp
    | some e =>
      by_cases hv : v = "player" <;> simp [hv]
  · intro e
    unfold scheduleActive
    simp [Bool.and_eq_true, List.contains, List.elem_iff, and_assoc]
  · intro f
    have hact : (scheduleActive day (formatHhMm hh mm) ∘ fun e => { e with endTime := f e }) =
        scheduleActive day (formatHhMm hh mm) := funext (fun e => rfl)
    unfold checkSchedule
    rw [List.find?_map, hact]
    cases hf : schedules.find? (scheduleActive day (formatHhMm hh mm)) <;> simp [hf]
  · intro e rest hp
    exact List.find?_cons_of_pos rest hp
  · intro hv
    unfold checkSchedule
    cases hf : schedules.find? (scheduleActive day (formatHhMm hh mm)) <;> simp [hv]

/-- Claim C6 witness: the decoder facts evaluated on the concrete buffer
`[0, 1, 255, 255, 7]`. -/
theorem C6_decodeAudioData_spec_witness :
    (decodeAudioData [0, 1, 255, 255, 7]).length = [0, 1, 255, 255, 7].length / 2 ∧
    sAt 0 (decodeAudioData [0, 1, 255, 255, 7]) 1 =
      (int16OfBytes (sAt 0 [0, 1, 255, 255, 7] 2) (sAt 0 [0, 1, 255, 255, 7] 3) : Rat) / 32768 ∧
    decodeAudioData ([0, 1, 255, 255] ++ [7]) = decodeAudioData [0, 1, 255, 255] :=
  ⟨(C6_decodeAudioData_spec [0, 1, 255, 255, 7]).1,
   (C6_decodeAudioData_spec [0, 1, 255, 255, 7]).2.1 1 (by decide),
   (C6_decodeAudioData_spec [0, 1, 255, 255]).2.2 7 (by decide)⟩

/-- Claim C7 witness: navigation facts evaluated on a fresh three-unit
session with a seek to index 2. -/
theorem C7_navigation_clamps_witness :
    (seekClick 2 (initEngine 3)).currentIndex =
      min (max 2 0) ((initEngine 3).nSentences - 1) ∧
    (seekClick 2 (initEngine 3)).currentIndex < (initEngine 3).nSentences ∧
    (prevClick (initEngine 3)).currentIndex = max 0 ((initEngine 3).currentIndex - 1) ∧
    (prevClick (initEngine 3)).currentIndex < (initEngine 3).nSentences ∧
    (nextClick (initEngine 3)).currentIndex =
      min ((initEngine 3).nSentences - 1) ((initEngine 3).currentIndex + 1) ∧
    (nextClick (initEngine 3)).currentIndex < (initEngine 3).nSentences :=
  C7_navigation_clamps (initEngine 3) 2 (by decide) (by decide) (by decide)

/-- Claim C8 witness: the default schedules checked on a Monday at 07:00
(match and no-rearm on the player view) and on a Sunday (no match). -/
theorem C8_checkSchedule_spec_witness :
    (checkSchedule defaultSchedules 1 7 0 "home").2 = true ∧
    (checkSchedule defaultSchedules 1 7 0 "home").1 = "player" ∧
    checkSchedule defaultSchedules 1 7 0 "player" = ("player", false) ∧
    checkSchedule defaultSchedules 0 7 0 "home" = ("home", false) := by
  have h1 := C8_checkSchedule_spec defaultSchedules 1 7 0 "home"
  have h2 := (C8_checkSchedule_spec defaultSchedules 1 7 0 "player").2.2.2.2.2 rfl
  have h3 := C8_checkSchedule_spec defaultSchedules 0 7 0 "home"
  refine ⟨h1.1.mpr ⟨by decide, by decide⟩, ?_, h2, ?_⟩
  · have := h1.2.1
    rw [h1.1.mpr ⟨by decide, by decide⟩] at this
    simpa using this
  · have hnone : (checkSchedule defaultSchedules 0 7 0 "home").2 = false := by
      have := h3.1
      by_cases hb : (checkSchedule defaultSchedules 0 7 0 "home").2 = true
      · exact absurd ((this.mp hb).1) (by decide)
      · simpa using hb
    have hv := h3.2.1
    rw [hnone] at hv
    simp at hv
    exact Prod.ext hv hnone

/-- Claim C10 witness: a concrete fetched payload with a category to be
ignored and two sentences re-keyed `s-0`, `s-1`. -/
theorem C10_fetchLessonContent_spec_witness :
    (fetchLessonContent "曹刿论战" "r1"
      { title := some "", category := some "ignored",
        sentences := some [{ original := "a", translation := "b" },
                           { original := "c", translation := "d" }] }).category = "custom" ∧
    sAt dummySentence (fetchLessonContent "曹刿论战" "r1"
      { title := some "", category := some "ignored",
        sentences := some [{ original := "a", translation := "b" },
                           { original := "c", translation := "d" }] }).sentences 1 =
      { id := "s-" ++ toString 1, original := "c", translation := "d" } := by
  have h := C10_fetchLessonContent_spec "曹刿论战" "r1"
    { title := some "", category := some "ignored",
      sentences := some [{ original := "a", translation := "b" },
                         { original := "c", translation := "d" }] }
  refine ⟨h.1, ?_⟩
  have h2 := h.2.2.2 1 (by decide)
  rw [h2]
  decide

/-- Claim C3: in auto-narration mode a speech-generation failure for unit
`k` does not abort the session: the failure branch of `playNextSentence`
only clears the loading flag and schedules the fixed-delay skip timeout,
whose body advances `currentIndex` to `k+1` when `k+1 < len(units)` and
otherwise sets `isPlaying` to false — the full-state equalities show the
failed unit is never retried and nothing else is touched. -/
theorem C3_generation_failure_skips (s : EngineState) (k : Nat)
    (hm : s.mounted = true) (hp : s.isPlaying = true) :
    playNextResult k none s = { s with loadingAudio := false, pendingSkip := some k } ∧
    (∀ t : EngineState, k + 1 < t.nSentences →
      skipTimeoutBody k t = { t with currentIndex := k + 1 }) ∧
    (∀ t : EngineState, ¬ k + 1 < t.nSentences →
      skipTimeoutBody k t = { t with isPlaying := false }) ∧
    (∀ t : EngineState, t.pendingSkip = some k →
      stepEv Event.skipFire t = skipTimeoutBody k { t with pendingSkip := none }) := by
  refine ⟨?_, ?_, ?_, ?_⟩
  · unfold playNextResult
    simp [hm, hp]
  · intro t ht
    unfold skipTimeoutBody
    simp [ht]
  · intro t ht
    unfold skipTimeoutBody
    simp [ht]
  · intro t ht
    unfold stepEv
    rw [ht]

theorem stopAllAudio_none_ref (s : EngineState) (h : s.currentSourceRef = none) :
    stopAllAudio s = { s with activeSpeechId := none } := by
  unfold stopAllAudio
  nth_rewrite 1 [h]
  rfl

theorem stopAllAudio_some_ref (s : EngineState) (sid : Nat)
    (h : s.currentSourceRef = some sid) :
    stopAllAudio s = { s with
      sources := s.sources.set sid
        { connected := false, started := false, onended := none,
          buffer := (sAt dummySource s.sources sid).buffer },
      currentSourceRef := none, activeSpeechId := none } := by
  unfold stopAllAudio
  rw [h]

theorem stopAllAudio_detached (s : EngineState) (sid : Nat)
    (href : s.currentSourceRef = some sid) :
    (sAt dummySource (stopAllAudio s).sources sid).onended = none ∧
    (sAt dummySource (stopAllAudio s).sources sid).started = false := by
  rw [stopAllAudio_some_ref s sid href]
  by_cases hlt : sid < s.sources.length
  · rw [sAt_set_self dummySource _ _ _ hlt]
    exact ⟨rfl, rfl⟩
  · rw [List.set_eq_of_length_le (Nat.le_of_not_lt hlt)]
    rw [sAt_ge_length dummySource _ _ (Nat.le_of_not_lt hlt)]
    exact ⟨rfl, rfl⟩

/-- Claim C5: `stopAllAudio` — the single stop routine used by every
intentional stop path (`speakSentence` requests, the playback effect's
stop branch, `toggleAutoPlay`'s point-read cancellation, and new-buffer
submission) — detaches the completion observer before halting: afterwards
the stopped source has no `onended` observer and is not started, so
delivering its `ended` event is a no-op on the whole state (it can never
advance `currentIndex` or restart playback). -/
theorem C5_stop_detach_then_halt (s : EngineState) (sid : Nat)
    (href : s.currentSourceRef = some sid) :
    (sAt dummySource (stopAllAudio s).sources sid).onended = none ∧
    (sAt dummySource (stopAllAudio s).sources sid).started = false ∧
    fireEnded sid (stopAllAudio s) = stopAllAudio s ∧
    (∀ x : String, (speakSentenceReq x s).sources = (stopAllAudio s).sources) ∧
    (s.isPlaying = false → s.activeSpeechId = none → effectStop s = stopAllAudio s) ∧
    (s.activeSpeechId.isSome = true → (toggleAutoPlay s).sources = (stopAllAudio s).sources) := by
  have hfields := stopAllAudio_detached s sid href
  refine ⟨hfields.1, hfields.2, ?_, fun x => rfl, ?_, ?_⟩
  · have h2 := hfields.2
    simp only [fireEnded]
    rw [h2]
    simp
  · intro h1 h2
    unfold effectStop
    simp [h1, h2]
  · intro h1
    unfold toggleAutoPlay
    simp [h1]

theorem playNextReq_fields (k : Nat) (s : EngineState) :
    (playNextReq k s).currentIndex = s.currentIndex ∧
    (playNextReq k s).isLooping = s.isLooping ∧
    (playNextReq k s).isPlaying = s.isPlaying ∧
    (playNextReq k s).nSentences = s.nSentences ∧
    (playNextReq k s).mounted = s.mounted := by
  unfold playNextReq
  split
  · exact ⟨rfl, rfl, rfl, rfl, rfl⟩
  · exact ⟨rfl, rfl, rfl, rfl, rfl⟩

theorem playNextResult_fields (k : Nat) (a : Option (List Nat)) (s : EngineState) :
    (playNextResult k a s).currentIndex = s.currentIndex ∧
    (playNextResult k a s).isLooping = s.isLooping ∧
    (playNextResult k a s).nSentences = s.nSentences ∧
    (playNextResult k a s).mounted = s.mounted ∧
    (playNextResult k a s).isPlaying = s.isPlaying := by
  unfold playNextResult
  split
  · exact ⟨rfl, rfl, rfl, rfl, rfl⟩
  · cases a with
    | none => exact ⟨rfl, rfl, rfl, rfl, rfl⟩
    | some bytes =>
      simp only [stopAllAudio, startSource]
      cases href : s.currentSourceRef <;> simp [href]

theorem autoOnEnded_loop_fields (k : Nat) (s : EngineState) (hl : s.isLooping = true) :
    (autoOnEnded k s).currentIndex = s.currentIndex ∧
    (autoOnEnded k s).isLooping = true ∧
    (s.mounted = true → autoOnEnded k s = playNextReq k s) := by
  have key : autoOnEnded k s = if s.mounted = true then playNextReq k s else s := by
    unfold autoOnEnded
    by_cases hm : s.mounted = true
    · simp [hm, hl]
    · simp [hm]
  by_cases hm : s.mounted = true
  · rw [key, if_pos hm]
    have h := playNextReq_fields k s
    exact ⟨h.1, h.2.1.trans hl, fun _ => rfl⟩
  · rw [key, if_neg hm]
    exact ⟨rfl, hl, fun hc => absurd hc hm⟩

theorem cycleAuto_loop_iter (k : Nat) (bytes : List Nat) (N : Nat) (s : EngineState)
    (hl : s.isLooping = true) :
    ((cycleAuto k bytes)^[N] s).currentIndex = s.currentIndex ∧
    ((cycleAuto k bytes)^[N] s).isLooping = true := by
  induction N generalizing s with
  | zero => exact ⟨rfl, hl⟩
  | succ n ih =>
    rw [Function.iterate_succ_apply]
    have h1 := autoOnEnded_loop_fields k s hl
    have h2 := playNextResult_fields k (some bytes) (autoOnEnded k s)
    have hstep : (cycleAuto k bytes s).currentIndex = s.currentIndex ∧
        (cycleAuto k bytes s).isLooping = true := by
      unfold cycleAuto
      exact ⟨h2.1.trans h1.1, h2.2.1.trans h1.2.1⟩
    obtain ⟨hc, hlo⟩ := ih (cycleAuto k bytes s) hstep.2
    exact ⟨hc.trans hstep.1, hlo⟩

/-- Claim C2: on completion of unit `k` in auto-narration mode, if
`isLooping` is set the handler re-requests exactly index `k` and
`currentIndex` is unchanged — and stays unchanged after `N` consecutive
completion-and-replay cycles; otherwise `currentIndex` advances to `k+1`
when `k+1 < len(units)`, and else `isPlaying` becomes false and the
session status is marked finished. -/
theorem C2_completion_advances_or_loops (s : EngineState) (k N : Nat) (bytes : List Nat)
    (hm : s.mounted = true) :
    (s.isLooping = true →
      autoOnEnded k s = playNextReq k s ∧
      (autoOnEnded k s).currentIndex = s.currentIndex ∧
      ((cycleAuto k bytes)^[N] s).currentIndex = s.currentIndex) ∧
    (s.isLooping = false → k + 1 < s.nSentences →
      autoOnEnded k s = { s with currentIndex := k + 1 }) ∧
    (s.isLooping = false → ¬ k + 1 < s.nSentences →
      autoOnEnded k s = { s with isPlaying := false, statusMsg := some "全篇诵读完毕" }) := by
  refine ⟨?_, ?_, ?_⟩
  · intro hl
    have h1 := autoOnEnded_loop_fields k s hl
    exact ⟨h1.2.2 hm, h1.1, (cycleAuto_loop_iter k bytes N s hl).1⟩
  · intro hl hk
    unfold autoOnEnded
    simp [hm, hl, hk]
  · intro hl hk
    unfold autoOnEnded
    simp [hm, hl, hk]

/-- Claim C2 witness: three looping completion cycles on a looping
session keep `currentIndex` at 0; a non-looping completion of unit 1 in a
three-unit session advances to 2; completing the last unit stops playback
with the finished status. -/
theorem C2_completion_advances_or_loops_witness :
    ((cycleAuto 0 [0, 128])^[3] sLoopEx).currentIndex = sLoopEx.currentIndex ∧
    autoOnEnded 1 sPlayEx = { sPlayEx with currentIndex := 2 } ∧
    autoOnEnded 2 sPlayEx = { sPlayEx with isPlaying := false, statusMsg := some "全篇诵读完毕" } :=
  ⟨((C2_completion_advances_or_loops sLoopEx 0 3 [0, 128] rfl).1 rfl).2.2,
   (C2_completion_advances_or_loops sPlayEx 1 0 [] rfl).2.1 rfl (by decide),
   (C2_completion_advances_or_loops sPlayEx 2 0 [] rfl).2.2 rfl (by decide)⟩

/-- Claim C3 witness: the failure branch and the skip timeout evaluated
on concrete playing sessions (advance in a three-unit lesson, finish in a
two-unit lesson, timeout consumption). -/
theorem C3_generation_failure_skips_witness :
    playNextResult 1 none sPlayEx = { sPlayEx with loadingAudio := false, pendingSkip := some 1 } ∧
    skipTimeoutBody 1 (initEngine 3) = { initEngine 3 with currentIndex := 2 } ∧
    skipTimeoutBody 1 (initEngine 2) = { initEngine 2 with isPlaying := false } ∧
    stepEv Event.skipFire { initEngine 3 with pendingSkip := some 1 } =
      skipTimeoutBody 1 { initEngine 3 with pendingSkip := none } := by
  have h := C3_generation_failure_skips sPlayEx 1 rfl rfl
  exact ⟨h.1, h.2.1 (initEngine 3) (by decide), h.2.2.1 (initEngine 2) (by decide),
         h.2.2.2 { initEngine 3 with pendingSkip := some 1 } rfl⟩

/-- Claim C5 witness: stopping the reachable point-read-playing state
detaches and halts source 0 and makes its stale completion a no-op. -/
theorem C5_stop_detach_then_halt_witness :
    (sAt dummySource (stopAllAudio sPointPlayingEx).sources 0).onended = none ∧
    (sAt dummySource (stopAllAudio sPointPlayingEx).sources 0).started = false ∧
    fireEnded 0 (stopAllAudio sPointPlayingEx) = stopAllAudio sPointPlayingEx ∧
    (speakSentenceReq "x" sPointPlayingEx).sources = (stopAllAudio sPointPlayingEx).sources ∧
    effectStop sPointDoneEx = stopAllAudio sPointDoneEx ∧
    (toggleAutoPlay sPointPlayingEx).sources = (stopAllAudio sPointPlayingEx).sources := by
  have h1 := C5_stop_detach_then_halt sPointPlayingEx 0 (by decide)
  have h2 := C5_stop_detach_then_halt sPointDoneEx 0 (by decide)
  exact ⟨h1.1, h1.2.1, h1.2.2.1, h1.2.2.2.1 "x",
         h2.2.2.2.2.1 (by decide) (by decide), h1.2.2.2.2.2 (by decide)⟩

theorem stopAllAudio_fields (s : EngineState) :
    (stopAllAudio s).currentIndex = s.currentIndex ∧
    (stopAllAudio s).mounted = s.mounted ∧
    (stopAllAudio s).activeSpeechId = none ∧
    (stopAllAudio s).isPlaying = s.isPlaying ∧
    (stopAllAudio s).nSentences = s.nSentences := by
  cases href : s.currentSourceRef with
  | none =>
    rw [stopAllAudio_none_ref s href]
    exact ⟨rfl, rfl, rfl, rfl, rfl⟩
  | some sid =>
    rw [stopAllAudio_some_ref s sid href]
    exact ⟨rfl, rfl, rfl, rfl, rfl⟩

theorem speakSentenceReq_eq (x : String) (s : EngineState) :
    speakSentenceReq x s =
      { stopAllAudio s with
        isPlaying := false,
        loadingSpeechId := some x,
        statusMsg := some "AI 正在备嗓..." } := rfl

theorem startSource_eq (sid : Nat) (t : EngineState) :
    startSource sid t =
      { t with sources :=
          t.sources.set sid ({ sAt dummySource t.sources sid with started := true }) } := rfl

theorem speakSentenceResult_some_eq (x : String) (bytes : List Nat) (t : EngineState)
    (hm : t.mounted = true) :
    speakSentenceResult x (some bytes) t =
      startSource t.sources.length
        { t with
          loadingSpeechId := none,
          sources := t.sources ++ [pointSource bytes],
          currentSourceRef := some t.sources.length,
          activeSpeechId := some x,
          statusMsg := none } := by
  unfold speakSentenceResult
  simp [hm]

theorem pointResult_fire (t : EngineState) (x : String) (bytes : List Nat)
    (hm : t.mounted = true) :
    (speakSentenceResult x (some bytes) t).activeSpeechId = some x ∧
    (fireEnded t.sources.length (speakSentenceResult x (some bytes) t)).activeSpeechId = none ∧
    (fireEnded t.sources.length (speakSentenceResult x (some bytes) t)).isPlaying = t.isPlaying ∧
    (fireEnded t.sources.length (speakSentenceResult x (some bytes) t)).currentIndex =
      t.currentIndex := by
  rw [speakSentenceResult_some_eq x bytes t hm, startSource_eq]
  have hsrcAt : sAt dummySource (t.sources ++ [pointSource bytes]) t.sources.length =
      pointSource bytes :=
    sAt_append_length dummySource _ t.sources
  refine ⟨rfl, ?_⟩
  have hlen2 : t.sources.length < (t.sources ++ [pointSource bytes]).length := by simp
  have hAt : sAt dummySource
      ((t.sources ++ [pointSource bytes]).set t.sources.length
        ({ sAt dummySource (t.sources ++ [pointSource bytes]) t.sources.length with
           started := true }))
      t.sources.length =
      ({ sAt dummySource (t.sources ++ [pointSource bytes]) t.sources.length with
         started := true }) :=
    sAt_set_self dummySource _ _ _ hlen2
  have hlen : t.sources.length <
      ((t.sources ++ [pointSource bytes]).set t.sources.length
        ({ sAt dummySource (t.sources ++ [pointSource bytes]) t.sources.length with
           started := true })).length := by
    rw [length_set_eq]
    exact hlen2
  simp only [fireEnded]
  rw [hAt, hsrcAt]
  simp only [hlen, decide_eq_true_eq, Bool.and_eq_true]
  simp [pointSource, runCont, pointOnEnded, decide_eq_true hlen]

/-- Claim C4: `speakSentence(unitId, text)` cancels auto-narration by
setting `isPlaying` false without changing `currentIndex`, cancels any
other point-read (the active id is cleared and the referenced source is
halted); on completion of its own source `activeSpeechId` clears back to
none while `isPlaying` remains false (no auto-resume); on generation
failure the active point-read stays clear, a transient error status is
surfaced, and `currentIndex` is unchanged. -/
theorem C4_pointRead_spec (s : EngineState) (x : String) (bytes : List Nat)
    (hm : s.mounted = true) :
    ((speakSentenceReq x s).isPlaying = false ∧
     (speakSentenceReq x s).currentIndex = s.currentIndex ∧
     (speakSentenceReq x s).activeSpeechId = none) ∧
    (∀ sid0 : Nat, s.currentSourceRef = some sid0 →
      (sAt dummySource (speakSentenceReq x s).sources sid0).started = false) ∧
    ((speakSentenceResult x (some bytes) (speakSentenceReq x s)).activeSpeechId = some x ∧
     (fireEnded (speakSentenceReq x s).sources.length
       (speakSentenceResult x (some bytes) (speakSentenceReq x s))).activeSpeechId = none ∧
     (fireEnded (speakSentenceReq x s).sources.length
       (speakSentenceResult x (some bytes) (speakSentenceReq x s))).isPlaying = false ∧
     (fireEnded (speakSentenceReq x s).sources.length
       (speakSentenceResult x (some bytes) (speakSentenceReq x s))).currentIndex =
       s.currentIndex) ∧
    ((speakSentenceResult x none (speakSentenceReq x s)).activeSpeechId = none ∧
     (speakSentenceResult x none (speakSentenceReq x s)).statusMsg =
       some "AI 乐师暂时缺席，请重试" ∧
     (speakSentenceResult x none (speakSentenceReq x s)).currentIndex = s.currentIndex ∧
     (speakSentenceResult x none (speakSentenceReq x s)).isPlaying = false) := by
  have hsf := stopAllAudio_fields s
  have hm1 : (speakSentenceReq x s).mounted = true := by
    rw [speakSentenceReq_eq]
    exact hsf.2.1.trans hm
  have hfire := pointResult_fire (speakSentenceReq x s) x bytes hm1
  have hfail : speakSentenceResult x none (speakSentenceReq x s) =
      { speakSentenceReq x s with
        loadingSpeechId := none,
        statusMsg := some "AI 乐师暂时缺席，请重试" } := by
    unfold speakSentenceResult
    simp [hm1]
  refine ⟨⟨rfl, hsf.1, hsf.2.2.1⟩, ?_, ?_, ?_⟩
  · intro sid0 h0
    exact (stopAllAudio_detached s sid0 h0).2
  · exact ⟨hfire.1, hfire.2.1, hfire.2.2.1, hfire.2.2.2.trans hsf.1⟩
  · rw [hfail]
    exact ⟨hsf.2.2.1, rfl, hsf.1, rfl⟩

/-- Claim C4 witness: a point-read issued over the reachable
auto-playing state, with both the completed and the failed continuation
evaluated. -/
theorem C4_pointRead_spec_witness :
    ((speakSentenceReq "s-0-orig" sOnePlayingEx).isPlaying = false ∧
     (speakSentenceReq "s-0-orig" sOnePlayingEx).currentIndex = sOnePlayingEx.currentIndex ∧
     (speakSentenceReq "s-0-orig" sOnePlayingEx).activeSpeechId = none) ∧
    (sAt dummySource (speakSentenceReq "s-0-orig" sOnePlayingEx).sources 0).started = false ∧
    (fireEnded (speakSentenceReq "s-0-orig" sOnePlayingEx).sources.length
      (speakSentenceResult "s-0-orig" (some [1, 2])
        (speakSentenceReq "s-0-orig" sOnePlayingEx))).activeSpeechId = none ∧
    (fireEnded (speakSentenceReq "s-0-orig" sOnePlayingEx).sources.length
      (speakSentenceResult "s-0-orig" (some [1, 2])
        (speakSentenceReq "s-0-orig" sOnePlayingEx))).isPlaying = false ∧
    (speakSentenceResult "s-0-orig" none (speakSentenceReq "s-0-orig" sOnePlayingEx)).statusMsg =
      some "AI 乐师暂时缺席，请重试" := by
  have h := C4_pointRead_spec sOnePlayingEx "s-0-orig" [1, 2] (by decide)
  exact ⟨h.1, h.2.1 0 (by decide), h.2.2.1.2.1, h.2.2.1.2.2.1, h.2.2.2.2.1⟩

theorem startedOnly_of_eq (s t : EngineState) (hs : t.sources = s.sources)
    (hr : t.currentSourceRef = s.currentSourceRef) (h : startedOnly s) : startedOnly t := by
  intro i hi hst
  rw [hs] at hi hst
  rw [hr]
  exact h i hi hst

theorem stopAllAudio_noStarted (s : EngineState) (h : startedOnly s) :
    ∀ i, i < (stopAllAudio s).sources.length →
      (sAt dummySource (stopAllAudio s).sources i).started = false := by
  intro i hi
  cases href : s.currentSourceRef with
  | none =>
    rw [stopAllAudio_none_ref s href] at hi ⊢
    by_cases hst : (sAt dummySource s.sources i).started = true
    · have hrefi := h i hi hst
      rw [href] at hrefi
      cases hrefi
    · simpa using hst
  | some sid =>
    rw [stopAllAudio_some_ref s sid href] at hi ⊢
    rw [length_set_eq] at hi
    by_cases hisid : i = sid
    · subst hisid
      rw [sAt_set_self dummySource _ _ _ hi]
    · rw [sAt_set_ne dummySource _ _ _ _ hisid]
      by_cases hst : (sAt dummySource s.sources i).started = true
      · have hrefi := h i hi hst
        rw [href] at hrefi
        exact absurd (Option.some.inj hrefi).symm hisid
      · simpa using hst

theorem startedOnly_stopAllAudio (s : EngineState) (h : startedOnly s) :
    startedOnly (stopAllAudio s) := by
  intro i hi hst
  rw [stopAllAudio_noStarted s h i hi] at hst
  cases hst

theorem noStarted_append (ss : List SourceNode) (src : SourceNode) (hsrc : src.started = false)
    (h : ∀ i, i < ss.length → (sAt dummySource ss i).started = false) :
    ∀ i, i < (ss ++ [src]).length → (sAt dummySource (ss ++ [src]) i).started = false := by
  intro i hi
  by_cases hlt : i < ss.length
  · rw [sAt_append_left dummySource _ _ _ hlt]
    exact h i hlt
  · have hieq : i = ss.length := by
      rw [List.length_append, List.length_cons, List.length_nil] at hi
      omega
    subst hieq
    rw [sAt_append_length]
    exact hsrc

theorem noStarted_set_unique (ss : List SourceNode) (nid : Nat) (node : SourceNode)
    (h : ∀ i, i < ss.length → (sAt dummySource ss i).started = false) :
    ∀ i, i < (ss.set nid node).length →
      (sAt dummySource (ss.set nid node) i).started = true → i = nid := by
  intro i hi hst
  by_cases hin : i = nid
  · exact hin
  · rw [sAt_set_ne dummySource _ _ _ _ hin] at hst
    rw [length_set_eq] at hi
    rw [h i hi] at hst
    cases hst

theorem startedOnly_append_state (t : EngineState) (src : SourceNode)
    (hsrc : src.started = false) (h : startedOnly t) :
    startedOnly { t with sources := t.sources ++ [src] } := by
  intro i hi hst
  dsimp only at hi hst ⊢
  by_cases hlt : i < t.sources.length
  · rw [sAt_append_left dummySource _ _ _ hlt] at hst
    exact h i hlt hst
  · have hieq : i = t.sources.length := by
      rw [List.length_append, List.length_cons, List.length_nil] at hi
      omega
    subst hieq
    rw [sAt_append_length] at hst
    rw [hsrc] at hst
    cases hst

theorem playNextResult_some_eq (k : Nat) (bytes : List Nat) (s : EngineState)
    (hm : s.mounted = true) (hp : s.isPlaying = true) :
    playNextResult k (some bytes) s =
      { startSource s.sources.length
          { stopAllAudio
              { s with
                loadingAudio := false,
                sources := s.sources ++ [autoSource k bytes] } with
            currentSourceRef := some s.sources.length } with
        statusMsg := none } := by
  unfold playNextResult
  simp [hm, hp]

theorem startedOnly_submitNew (t : EngineState) (src : SourceNode)
    (hsrc : src.started = false) (h : startedOnly t) :
    startedOnly
      (startSource t.sources.length
        { stopAllAudio { t with sources := t.sources ++ [src] } with
          currentSourceRef := some t.sources.length }) := by
  have hstop : startedOnly { t with sources := t.sources ++ [src] } :=
    startedOnly_append_state t src hsrc h
  have hnone := stopAllAudio_noStarted _ hstop
  intro i hi hst
  rw [startSource_eq] at hi hst
  dsimp only at hi hst ⊢
  have hieq : i = t.sources.length := by
    apply noStarted_set_unique _ _ _ hnone i _ hst
    exact hi
  subst hieq
  rfl

theorem runCont_sources_ref (c : EndedCont) (s : EngineState) :
    (runCont c s).sources = s.sources ∧ (runCont c s).currentSourceRef = s.currentSourceRef := by
  cases c with
  | auto index =>
    unfold runCont autoOnEnded playNextReq
    repeat' split
    all_goals exact ⟨rfl, rfl⟩
  | point => exact ⟨rfl, rfl⟩

theorem startedOnly_markOff (s : EngineState) (sid : Nat) (h : startedOnly s) :
    startedOnly
      { s with sources :=
          s.sources.set sid ({ sAt dummySource s.sources sid with started := false }) } := by
  intro i hi hst
  dsimp only at hi hst ⊢
  rw [length_set_eq] at hi
  by_cases hin : i = sid
  · subst hin
    rw [sAt_set_self dummySource _ _ _ hi] at hst
    cases hst
  · rw [sAt_set_ne dummySource _ _ _ _ hin] at hst
    exact h i hi hst

theorem startedOnly_fireEnded (sid : Nat) (s : EngineState) (h : startedOnly s) :
    startedOnly (fireEnded sid s) := by
  unfold fireEnded
  dsimp only
  split
  · split
    · next c heq =>
        refine startedOnly_of_eq _ _ (runCont_sources_ref c _).1 (runCont_sources_ref c _).2 ?_
        exact startedOnly_markOff s sid h
    · exact startedOnly_markOff s sid h
  · exact h

theorem startedOnly_playNextResult (k : Nat) (a : Option (List Nat)) (s : EngineState)
    (h : startedOnly s) : startedOnly (playNextResult k a s) := by
  by_cases hm : s.mounted = true
  · by_cases hp : s.isPlaying = true
    · cases a with
      | none =>
        have he : playNextResult k none s =
            { s with loadingAudio := false, pendingSkip := some k } := by
          unfold playNextResult
          simp [hm, hp]
        rw [he]
        exact startedOnly_of_eq s _ rfl rfl h
      | some bytes =>
        rw [playNextResult_some_eq k bytes s hm hp]
        refine startedOnly_of_eq _ _ rfl rfl ?_
        refine startedOnly_submitNew ({ s with loadingAudio := false })
          (autoSource k bytes) rfl ?_
        exact startedOnly_of_eq s _ rfl rfl h
    · have hp' : s.isPlaying = false := by
        simpa using hp
      have he : playNextResult k a s = s := by
        unfold playNextResult
        simp [hp']
      rw [he]
      exact h
  · have hm' : s.mounted = false := by
      simpa using hm
    have he : playNextResult k a s = s := by
      unfold playNextResult
      simp [hm']
    rw [he]
    exact h

theorem startedOnly_speakSentenceResult (x : String) (a : Option (List Nat)) (s : EngineState)
    (h : startedOnly s)
    (hg : a.isSome = true → ∀ i, i < s.sources.length →
      (sAt dummySource s.sources i).started = false) :
    startedOnly (speakSentenceResult x a s) := by
  by_cases hm : s.mounted = true
  · cases a with
    | none =>
      have he : speakSentenceResult x none s =
          { s with loadingSpeechId := none, statusMsg := some "AI 乐师暂时缺席，请重试" } := by
        unfold speakSentenceResult
        simp [hm]
      rw [he]
      exact startedOnly_of_eq s _ rfl rfl h
    | some bytes =>
      rw [speakSentenceResult_some_eq x bytes s hm]
      have hnone := hg rfl
      have hnone2 := noStarted_append s.sources (pointSource bytes) rfl hnone
      intro i hi hst
      rw [startSource_eq] at hi hst
      dsimp only at hi hst ⊢
      have hieq : i = s.sources.length := by
        apply noStarted_set_unique _ _ _ hnone2 i _ hst
        exact hi
      subst hieq
      rfl
  · have hm' : s.mounted = false := by
      simpa using hm
    have he : speakSentenceResult x a s = s := by
      unfold speakSentenceResult
      simp [hm']
    rw [he]
    exact h

theorem startedOnly_stepEv (e : Event) (s : EngineState) (h : startedOnly s)
    (hg : pointGuard e s) : startedOnly (stepEv e s) := by
  cases e with
  | togglePlay =>
    show startedOnly (toggleAutoPlay s)
    unfold toggleAutoPlay
    by_cases hc : s.activeSpeechId.isSome = true
    · simp only [hc, if_true]
      exact startedOnly_of_eq _ _ rfl rfl (startedOnly_stopAllAudio s h)
    · simp only [hc, if_false]
      exact startedOnly_of_eq s _ rfl rfl h
  | toggleLoop => exact startedOnly_of_eq s _ rfl rfl h
  | prevClick =>
    show startedOnly (prevClick s)
    unfold prevClick
    split
    · exact h
    · exact startedOnly_of_eq s _ rfl rfl h
  | nextClick =>
    show startedOnly (nextClick s)
    unfold nextClick
    split
    · exact h
    · exact startedOnly_of_eq s _ rfl rfl h
  | seekClick idx =>
    show startedOnly (seekClick idx s)
    unfold seekClick
    dsimp only
    split
    · exact startedOnly_of_eq s _ rfl rfl h
    · exact startedOnly_of_eq s _ rfl rfl h
  | autoReq index =>
    show startedOnly (playNextReq index s)
    unfold playNextReq
    split
    · exact h
    · exact startedOnly_of_eq s _ rfl rfl h
  | autoRes index audio => exact startedOnly_playNextResult index audio s h
  | skipFire =>
    cases hp : s.pendingSkip with
    | none =>
      have he : stepEv Event.skipFire s = s := by
        unfold stepEv
        rw [hp]
      rw [he]
      exact h
    | some k =>
      have he : stepEv Event.skipFire s = skipTimeoutBody k { s with pendingSkip := none } := by
        unfold stepEv
        rw [hp]
      rw [he]
      unfold skipTimeoutBody
      split
      · exact startedOnly_of_eq s _ rfl rfl h
      · exact startedOnly_of_eq s _ rfl rfl h
  | pointReq x =>
    show startedOnly (speakSentenceReq x s)
    exact startedOnly_of_eq _ _ rfl rfl (startedOnly_stopAllAudio s h)
  | pointRes x audio =>
    show startedOnly (speakSentenceResult x audio s)
    refine startedOnly_speakSentenceResult x audio s h ?_
    intro hs
    cases audio with
    | none => cases hs
    | some bytes => exact hg
  | ended sid => exact startedOnly_fireEnded sid s h
  | effectStop =>
    show startedOnly (effectStop s)
    unfold effectStop
    split
    · exact startedOnly_stopAllAudio s h
    · exact h

theorem startedOnly_runGood (evs : List Event) :
    ∀ s : EngineState, startedOnly s → goodTrace s evs →
      startedOnly (evs.foldl (fun t e => stepEv e t) s) := by
  induction evs with
  | nil => exact fun s h _ => h
  | cons e rest ih =>
    intro s h hg
    exact ih (stepEv e s) (startedOnly_stepEv e s h hg.1) hg.2

theorem startedOnly_atMostOne (s : EngineState) (h : startedOnly s) : atMostOneActive s := by
  intro i hi j hj hsti hstj
  have h1 := h i hi hsti
  have h2 := h j hj hstj
  rw [h1] at h2
  exact Option.some.inj h2

/-- Claim C1 counterexample: in the interleaving `c1Trace` — a point-read
is requested, auto-narration is then started and its speech result begins
playback, and only afterwards the point-read's speech result arrives — the
point-read continuation starts its source without stopping the playing
auto source, so sources 0 and 1 are both active and the claimed invariant
fails. -/
theorem C1_single_active_counterexample :
    ¬ atMostOneActive (runEvents 3 c1Trace) := by
  intro h
  have h01 := h 0 (by decide) 1 (by decide) (by decide) (by decide)
  exact absurd h01 (by decide)

/-- Claim C1 (amended): an auto-narration submission always stops,
detaches and disconnects the previously playing source before the new
source is started, and at most one playback source is active after any
event sequence in which every point-read speech result arrives while no
source is playing; (the unguarded point-read result path is the sole
violation, exhibited by the counterexample). -/
theorem C1_single_active_amended (n : Nat) (evs : List Event)
    (hg : goodTrace (initEngine n) evs) :
    atMostOneActive (runEvents n evs) ∧
    (∀ (s : EngineState) (k sid0 : Nat) (bytes : List Nat),
      s.mounted = true → s.isPlaying = true →
      s.currentSourceRef = some sid0 → sid0 < s.sources.length →
      (sAt dummySource (playNextResult k (some bytes) s).sources sid0).started = false ∧
      (sAt dummySource (playNextResult k (some bytes) s).sources sid0).onended = none ∧
      (sAt dummySource (playNextResult k (some bytes) s).sources sid0).connected = false) := by
  constructor
  · apply startedOnly_atMostOne
    apply startedOnly_runGood evs (initEngine n) _ hg
    intro i hi hst
    simp [initEngine] at hi
  · intro s k sid0 bytes hm hp href hlt
    rw [playNextResult_some_eq k bytes s hm hp, startSource_eq]
    have href2 : ({ s with
        loadingAudio := false,
        sources := s.sources ++ [autoSource k bytes] } : EngineState).currentSourceRef =
        some sid0 := href
    rw [stopAllAudio_some_ref _ sid0 href2]
    dsimp only
    have hne : sid0 ≠ s.sources.length := Nat.ne_of_lt hlt
    rw [sAt_set_ne dummySource _ _ _ _ hne]
    have hlt2 : sid0 < (s.sources ++ [autoSource k bytes]).length := by
      rw [List.length_append]
      omega
    rw [sAt_set_self dummySource _ _ _ hlt2]
    exact ⟨rfl, rfl, rfl⟩

/-- Claim C1 witness: the guarded trace (point-read completes before
auto-narration starts) keeps at most one source active, and the auto
submission over the reachable playing state halts the previous source. -/
theorem C1_single_active_amended_witness :
    atMostOneActive (runEvents 2 goodTraceEx) ∧
    ((sAt dummySource (playNextResult 0 (some [3, 4]) sOnePlayingEx).sources 0).started = false ∧
     (sAt dummySource (playNextResult 0 (some [3, 4]) sOnePlayingEx).sources 0).onended = none ∧
     (sAt dummySource (playNextResult 0 (some [3, 4]) sOnePlayingEx).sources 0).connected =
       false) := by
  have hgt : goodTrace (initEngine 2) goodTraceEx := by
    refine ⟨trivial, ?_, trivial, trivial, trivial, trivial, trivial⟩
    show ∀ i, i < (stepEv (Event.pointReq "s-0-orig") (initEngine 2)).sources.length →
      (sAt dummySource (stepEv (Event.pointReq "s-0-orig") (initEngine 2)).sources i).started =
        false
    decide
  have h := C1_single_active_amended 2 goodTraceEx hgt
  exact ⟨h.1, h.2 sOnePlayingEx 0 0 [3, 4] (by decide) (by decide) (by decide) (by decide)⟩
